import Mathlib

/-!
Verification development for the MtA (multiplicative-to-additive) share
conversion subprotocol and the protocol parameter plumbing of a threshold
signature library.

The embedding follows the Go sources:
* `crypto/mta/share_protocol.go` — the MtA driver (`AliceInit`, `BobMid`,
  `BobMidWC`, `AliceEnd`, `AliceEndWC`);
* the Bob proof file — `ProveBobWC`, `ProveBob`, `ProofBobWC.Verify`,
  `ProofBob.Verify`, the byte (de)serializers;
* `tss/params.go` — `Parameters`, `ReSharingParameters` and their getters.

External collaborators (the Paillier cryptosystem, the elliptic curve, the
SHA-512/256 hash, the random samplers and small `common` helpers) are not part
of the analysed sources; they are modelled from the specification, as noted on
each such definition.  Nilable Go pointers (`*big.Int`, `*ProofBob`,
`*crypto.ECPoint`) are modelled as `Option`; a nil-pointer dereference (a Go
panic) is modelled by propagating `Option.none`.
-/

set_option maxHeartbeats 1000000

/-- Big-endian base-256 digits of a natural number, fuel-indexed so that the
definition is structural (the fuel is always taken to be the number itself).
Models the output of Go `big.Int.Bytes`: most significant byte first, and the
number zero encodes as the empty slice. -/
def natBytesAux : Nat → Nat → List Nat
  | 0, _ => []
  | fuel + 1, n => if n = 0 then [] else natBytesAux fuel (n / 256) ++ [n % 256]

/-- Modelled from the source: `big.Int.Bytes` returns the absolute value as a
big-endian byte slice; zero yields an empty slice. -/
def intBytes (n : Int) : List Nat :=
  natBytesAux n.natAbs n.natAbs

/-- Big-endian interpretation of a byte slice as a natural number. -/
def natSetBytes (l : List Nat) : Nat :=
  l.foldl (fun acc b => acc * 256 + b) 0

/-- Modelled from the source: `big.Int.SetBytes` interprets a byte slice as a
big-endian unsigned integer. -/
def intSetBytes (l : List Nat) : Int :=
  (natSetBytes l : Int)

/-- Modular exponentiation as used through `common.ModInt.Exp`, which wraps
`big.Int.Exp`: the result is reduced into `[0, m)` for a positive modulus.  All
exponents appearing on executed paths of this development are non-negative; a
negative exponent is given the pre-Go-1.19 `big.Int.Exp` behaviour (result 1). -/
def modExp (x y m : Int) : Int :=
  if y < 0 then 1 % m else (x ^ y.toNat) % m

/-- Modelled from the spec: `common.IsInInterval(b, bound)` holds iff
`0 ≤ b < bound`. -/
def isInInterval (x bound : Int) : Prop :=
  0 ≤ x ∧ x < bound

instance (x bound : Int) : Decidable (isInInterval x bound) := by
  unfold isInInterval; infer_instance

/-- A point of the elliptic curve, as the pair of affine coordinates stored by
`crypto.ECPoint`. -/
structure ECPoint where
  x : Int
  y : Int
deriving DecidableEq

/-- Modelled from the spec: the curve abstraction (`tss.EC()` together with the
`crypto` package).  `q` is the curve order `tss.EC().Params().N`; the point
operations and the SHA-512/256 hash-to-integer are opaque collaborators.
`addPoints` returns `none` when `crypto.ECPoint.Add` reports an error. -/
structure CurveEnv where
  q : Int
  qpos : 0 < q
  onCurve : Int → Int → Bool
  scalarBaseMult : Int → ECPoint
  scalarMult : Int → ECPoint → ECPoint
  addPoints : ECPoint → ECPoint → Option ECPoint
  hash : List Int → Int

/-- The Paillier public key as used by the Bob proofs: it stores `N`; the
generator is `Γ = N + 1` and `NSquare() = N²` (spec §3). -/
structure PublicKey where
  N : Int
deriving DecidableEq

/-- Modelled from the spec: `paillier.PublicKey.AsInts` lists `N` and
`Γ = N + 1`. -/
def pkAsInts (pk : PublicKey) : List Int :=
  [pk.N, pk.N + 1]

/-- `ProofBob` with the ten integer components; each field is a nilable
`*big.Int`. -/
structure ProofBob where
  Z : Option Int
  ZPrm : Option Int
  T : Option Int
  V : Option Int
  W : Option Int
  S : Option Int
  S1 : Option Int
  S2 : Option Int
  T1 : Option Int
  T2 : Option Int
deriving DecidableEq

/-- `ProofBobWC`: a `ProofBob` together with the nilable point `U`. -/
structure ProofBobWC where
  toProofBob : ProofBob
  U : Option ECPoint
deriving DecidableEq

/-- The random draws made by `ProveBobWC`, supplied as an explicit tape.
Modelled from the spec: `alpha ← Z_{q³}`, `rho, sigma ← Z_{q·NTilde}`,
`tau, rhoPrm ← Z_{q³·NTilde}`, `beta ← Z*_N`, `gamma ← Z_{q⁷}` are drawn by the
external samplers of the `common` package. -/
structure ProverTape where
  alpha : Int
  rho : Int
  sigma : Int
  tau : Int
  rhoPrm : Int
  beta : Int
  gamma : Int

/-- The body of `ProveBobWC` once the nil-argument guard has passed (all inputs
are values).  Steps are numbered as in the source. -/
def proveBobWCCore (env : CurveEnv) (tape : ProverTape) (pk : PublicKey)
    (NTilde h1 h2 c1 c2 x y r : Int) (X : Option ECPoint) : ProofBobWC :=
  let NSq := pk.N * pk.N
  let q := env.q
  -- 1-4. the seven nonce draws are supplied by `tape` (see `ProverTape`)
  -- 5.
  let u : ECPoint := match X with
    | none => ⟨0, 0⟩
    | some _ => env.scalarBaseMult tape.alpha
  -- 6.
  let z := (modExp h1 x NTilde * modExp h2 tape.rho NTilde) % NTilde
  -- 7.
  let zPrm := (modExp h1 tape.alpha NTilde * modExp h2 tape.rhoPrm NTilde) % NTilde
  -- 8.
  let t := (modExp h1 y NTilde * modExp h2 tape.sigma NTilde) % NTilde
  -- 9.
  let v := ((modExp c1 tape.alpha NSq * modExp (pk.N + 1) tape.gamma NSq) % NSq
      * modExp tape.beta pk.N NSq) % NSq
  -- 10.
  let w := (modExp h1 tape.gamma NTilde * modExp h2 tape.tau NTilde) % NTilde
  -- 11-12. the Fiat-Shamir challenge; `RejectionSample(q, h)` reduces mod q
  let eHash := match X with
    | none => env.hash (pkAsInts pk ++ [c1, c2, z, zPrm, t, v, w])
    | some Xp => env.hash (pkAsInts pk ++ [Xp.x, Xp.y, c1, c2, u.x, u.y, z, zPrm, t, v, w])
  let e := eHash % q
  -- 13.
  let s := (modExp r e pk.N * tape.beta) % pk.N
  -- 14.
  let s1 := e * x + tape.alpha
  -- 15.
  let s2 := e * tape.rho + tape.rhoPrm
  -- 16.
  let t1 := e * y + tape.gamma
  -- 17.
  let t2 := e * tape.sigma + tape.tau
  { toProofBob := { Z := some z, ZPrm := some zPrm, T := some t, V := some v, W := some w,
                    S := some s, S1 := some s1, S2 := some s2, T1 := some t1, T2 := some t2 },
    U := some u }

/-- `ProveBobWC`: Bob's proof with or without the consistency check; a nil
argument among the first nine is rejected, an absent `X` yields the proof
without the check. -/
def proveBobWC (env : CurveEnv) (tape : ProverTape) (pk : Option PublicKey)
    (NTilde h1 h2 c1 c2 x y r : Option Int) (X : Option ECPoint) :
    Except String ProofBobWC :=
  match pk with
  | none => .error "ProveBob() received a nil argument"
  | some pkv =>
  match NTilde with
  | none => .error "ProveBob() received a nil argument"
  | some ntv =>
  match h1 with
  | none => .error "ProveBob() received a nil argument"
  | some h1v =>
  match h2 with
  | none => .error "ProveBob() received a nil argument"
  | some h2v =>
  match c1 with
  | none => .error "ProveBob() received a nil argument"
  | some c1v =>
  match c2 with
  | none => .error "ProveBob() received a nil argument"
  | some c2v =>
  match x with
  | none => .error "ProveBob() received a nil argument"
  | some xv =>
  match y with
  | none => .error "ProveBob() received a nil argument"
  | some yv =>
  match r with
  | none => .error "ProveBob() received a nil argument"
  | some rv =>
    .ok (proveBobWCCore env tape pkv ntv h1v h2v c1v c2v xv yv rv X)

/-- `ProveBob`: extracts the without-check part of `ProveBobWC` run with an
absent `X`. -/
def proveBob (env : CurveEnv) (tape : ProverTape) (pk : Option PublicKey)
    (NTilde h1 h2 c1 c2 x y r : Option Int) : Except String ProofBob :=
  match proveBobWC env tape pk NTilde h1 h2 c1 c2 x y r none with
  | .error e => .error e
  | .ok pf => .ok pf.toProofBob

/-- A single verifier predicate: continue with `k` when `p` holds, otherwise
return `false` (every failed check in `Verify` returns false). -/
def chk (p : Prop) [Decidable p] (k : Option Bool) : Option Bool :=
  if p then k else some false

/-- Checks 5-7 of `ProofBobWC.Verify` (the two `NTilde` equations and the `N²`
equation), run after the challenge `e` has been fixed.  Dereferences the
nilable fields `S2` and `T2`. -/
def verifyTail (pk : PublicKey) (NTilde h1 h2 c1 c2 : Int)
    (zv zpv tv vv wv sv s1v t1v : Int) (S2 T2 : Option Int) (e : Int) : Option Bool :=
  S2.bind fun s2v =>
  chk ((modExp h1 s1v NTilde * modExp h2 s2v NTilde) % NTilde
      = (modExp zv e NTilde * zpv) % NTilde) <|
  T2.bind fun t2v =>
  chk ((modExp h1 t1v NTilde * modExp h2 t2v NTilde) % NTilde
      = (modExp tv e NTilde * wv) % NTilde) <|
  chk (((modExp c1 s1v (pk.N * pk.N) * modExp sv pk.N (pk.N * pk.N)) % (pk.N * pk.N)
        * modExp (pk.N + 1) t1v (pk.N * pk.N)) % (pk.N * pk.N)
      = (modExp c2 e (pk.N * pk.N) * vv) % (pk.N * pk.N)) <|
  some true

/-- The body of `ProofBobWC.Verify` once the nil-argument guard has passed.
The receiver and each of its fields are nilable; a nil dereference (Go panic)
propagates as `none`.  Check order follows the source. -/
def verifyBobWCCore (env : CurveEnv) (pk : PublicKey) (NTilde h1 h2 c1 c2 : Int)
    (pfO : Option ProofBobWC) (X : Option ECPoint) : Option Bool :=
  let q := env.q
  let q3 := q * (q * q)
  let q7 := (q * (q * q)) * (q * (q * q)) * q
  pfO.bind fun pf =>
  pf.toProofBob.Z.bind fun zv =>
  chk (isInInterval zv NTilde) <|
  pf.toProofBob.ZPrm.bind fun zpv =>
  chk (isInInterval zpv NTilde) <|
  pf.toProofBob.T.bind fun tv =>
  chk (isInInterval tv NTilde) <|
  pf.toProofBob.V.bind fun vv =>
  chk (isInInterval vv (pk.N * pk.N)) <|
  pf.toProofBob.W.bind fun wv =>
  chk (isInInterval wv NTilde) <|
  pf.toProofBob.S.bind fun sv =>
  chk (isInInterval sv pk.N) <|
  chk (Int.gcd zv NTilde = 1) <|
  chk (Int.gcd zpv NTilde = 1) <|
  chk (Int.gcd tv NTilde = 1) <|
  chk (Int.gcd vv (pk.N * pk.N) = 1) <|
  chk (Int.gcd wv NTilde = 1) <|
  chk (¬ sv = 0) <|
  chk (Int.gcd sv pk.N = 1) <|
  chk (¬ vv = 0) <|
  chk (Int.gcd vv pk.N = 1) <|
  -- 3.
  pf.toProofBob.S1.bind fun s1v =>
  chk (¬ s1v > q3) <|
  pf.toProofBob.T1.bind fun t1v =>
  chk (¬ t1v > q7) <|
  -- 1-2. the challenge; then 4. (only with check); then 5-7.
  match X with
  | none =>
      verifyTail pk NTilde h1 h2 c1 c2 zv zpv tv vv wv sv s1v t1v pf.toProofBob.S2 pf.toProofBob.T2
        (env.hash (pkAsInts pk ++ [c1, c2, zv, zpv, tv, vv, wv]) % q)
  | some Xp =>
      pf.U.bind fun uPt =>
      let e := env.hash
          (pkAsInts pk ++ [Xp.x, Xp.y, c1, c2, uPt.x, uPt.y, zv, zpv, tv, vv, wv]) % q
      let gS1 := env.scalarBaseMult (s1v % q)
      match env.addPoints (env.scalarMult e Xp) uPt with
      | none => some false
      | some xEU => chk (gS1 = xEU) <|
          verifyTail pk NTilde h1 h2 c1 c2 zv zpv tv vv wv sv s1v t1v pf.toProofBob.S2 pf.toProofBob.T2 e

/-- `ProofBobWC.Verify`: nil arguments are rejected with `false` before the
proof itself is touched. -/
def verifyBobWC (env : CurveEnv) (pk : Option PublicKey)
    (NTilde h1 h2 c1 c2 : Option Int) (pfO : Option ProofBobWC)
    (X : Option ECPoint) : Option Bool :=
  match pk with
  | none => some false
  | some pkv =>
  match NTilde with
  | none => some false
  | some ntv =>
  match h1 with
  | none => some false
  | some h1v =>
  match h2 with
  | none => some false
  | some h2v =>
  match c1 with
  | none => some false
  | some c1v =>
  match c2 with
  | none => some false
  | some c2v =>
    verifyBobWCCore env pkv ntv h1v h2v c1v c2v pfO X

/-- `ProofBob.Verify`: a nil receiver yields `false`; otherwise the proof is
wrapped with an absent `U` and verified without the check. -/
def verifyBob (env : CurveEnv) (pk : Option PublicKey)
    (NTilde h1 h2 c1 c2 : Option Int) (pfO : Option ProofBob) : Option Bool :=
  match pfO with
  | none => some false
  | some pf => verifyBobWC env pk NTilde h1 h2 c1 c2 (some ⟨pf, none⟩) none

/-- `ProofBobBytesParts`. -/
def ProofBobBytesParts : Nat := 10

/-- `ProofBobWCBytesParts`. -/
def ProofBobWCBytesParts : Nat := 12

/-- Modelled from the spec: `common.NonEmptyMultiBytes(bzs, n)` holds iff the
slice has exactly `n` parts and every part is non-empty. -/
def nonEmptyMultiBytes (bzs : List (List Nat)) (n : Nat) : Bool :=
  bzs.length == n && bzs.all (fun b => !b.isEmpty)

/-- Modelled from the spec: `crypto.NewECPoint` validates that the coordinates
lie on the curve and errors otherwise. -/
def newECPoint (env : CurveEnv) (x y : Int) : Except String ECPoint :=
  if env.onCurve x y then .ok ⟨x, y⟩
  else .error "NewECPoint: the given point is not on the underlying curve"

/-- `ProofBobFromBytes`. -/
def proofBobFromBytes (bzs : List (List Nat)) : Except String ProofBob :=
  if !nonEmptyMultiBytes bzs ProofBobBytesParts
      && !nonEmptyMultiBytes bzs ProofBobWCBytesParts then
    .error "expected 10 byte parts to construct ProofBob, or 12 for ProofBobWC"
  else
    .ok { Z := some (intSetBytes (bzs.getD 0 []))
        , ZPrm := some (intSetBytes (bzs.getD 1 []))
        , T := some (intSetBytes (bzs.getD 2 []))
        , V := some (intSetBytes (bzs.getD 3 []))
        , W := some (intSetBytes (bzs.getD 4 []))
        , S := some (intSetBytes (bzs.getD 5 []))
        , S1 := some (intSetBytes (bzs.getD 6 []))
        , S2 := some (intSetBytes (bzs.getD 7 []))
        , T1 := some (intSetBytes (bzs.getD 8 []))
        , T2 := some (intSetBytes (bzs.getD 9 [])) }

/-- `ProofBobWCFromBytes`: decodes the first ten parts via
`ProofBobFromBytes`, then reads parts 10 and 11 as the point `U`.  Accessing a
part beyond the slice length is a Go panic, modelled by `none`. -/
def proofBobWCFromBytes (env : CurveEnv) (bzs : List (List Nat)) :
    Option (Except String ProofBobWC) :=
  match proofBobFromBytes bzs with
  | .error e => some (.error e)
  | .ok pb =>
    match bzs[10]?, bzs[11]? with
    | some b10, some b11 =>
      some (match newECPoint env (intSetBytes b10) (intSetBytes b11) with
            | .error e => .error e
            | .ok pt => .ok { toProofBob := pb, U := some pt })
    | _, _ => none

/-- `ProofBob.Bytes`: the ten components in fixed order; dereferencing a nil
field is a panic, modelled by `none`. -/
def proofBobBytes (pf : ProofBob) : Option (List (List Nat)) := do
  let z ← pf.Z
  let zPrm ← pf.ZPrm
  let t ← pf.T
  let v ← pf.V
  let w ← pf.W
  let s ← pf.S
  let s1 ← pf.S1
  let s2 ← pf.S2
  let t1 ← pf.T1
  let t2 ← pf.T2
  pure [intBytes z, intBytes zPrm, intBytes t, intBytes v, intBytes w,
        intBytes s, intBytes s1, intBytes s2, intBytes t1, intBytes t2]

/-- `ProofBobWC.Bytes`: the ten `ProofBob` parts with `U.X` and `U.Y`
appended. -/
def proofBobWCBytes (pf : ProofBobWC) : Option (List (List Nat)) := do
  let bob ← proofBobBytes pf.toProofBob
  let u ← pf.U
  pure (bob ++ [intBytes u.x, intBytes u.y])

/-- Modelled from the spec (§4.1): a Paillier key pair as seen through its
operations.  `encrypt m r` is the (probabilistic) encryption with randomness
`r` supplied externally; it is defined exactly for plaintexts in `[0, N)`.
`decrypt`, `homoAdd` and `homoMult` satisfy the correctness and homomorphism
laws of the spec; all failure cases are modelled by `none`. -/
structure PaillierScheme where
  N : Int
  Npos : 0 < N
  encrypt : Int → Int → Option Int
  decrypt : Int → Option Int
  decryptFull : Int → Option (Int × Int)
  homoAdd : Int → Int → Option Int
  homoMult : Int → Int → Option Int
  encrypt_isSome : ∀ m r, (encrypt m r).isSome ↔ (0 ≤ m ∧ m < N)
  decrypt_encrypt : ∀ m r c, encrypt m r = some c → decrypt c = some m
  homoAdd_spec : ∀ c1 c2 m1 m2 d, decrypt c1 = some m1 → decrypt c2 = some m2 →
      homoAdd c1 c2 = some d → decrypt d = some ((m1 + m2) % N)
  homoMult_spec : ∀ k c m d, decrypt c = some m → homoMult k c = some d →
      decrypt d = some ((k * m) % N)

/-- The public part of the scheme's key pair. -/
def PaillierScheme.pk (S : PaillierScheme) : PublicKey := ⟨S.N⟩

/-- A concrete structure satisfying the Paillier operation laws of spec §4.1,
used to instantiate theorems over `PaillierScheme` at executable inputs. -/
def modelScheme (N : Int) (h : 0 < N) : PaillierScheme where
  N := N
  Npos := h
  encrypt := fun m _ => if 0 ≤ m ∧ m < N then some m else none
  decrypt := fun c => some (c % N)
  decryptFull := fun c => some (c % N, 0)
  homoAdd := fun c1 c2 => some (c1 + c2)
  homoMult := fun k c => some (k * c)
  encrypt_isSome := by
    intro m r
    by_cases hm : 0 ≤ m ∧ m < N <;> simp [hm]
  decrypt_encrypt := by
    intro m r c hc
    by_cases hm : 0 ≤ m ∧ m < N
    · simp only [if_pos hm, Option.some.injEq] at hc
      subst hc
      simp [Int.emod_eq_of_lt hm.1 hm.2]
    · simp [if_neg hm] at hc
  homoAdd_spec := by
    intro c1 c2 m1 m2 d h1 h2 hd
    simp only [Option.some.injEq] at h1 h2 hd
    subst h1; subst h2; subst hd
    simp [Int.add_emod]
  homoMult_spec := by
    intro k c m d hc hd
    simp only [Option.some.injEq] at hc hd
    subst hc; subst hd
    simp only [Option.some.injEq]
    conv_lhs => rw [Int.mul_emod]
    conv_rhs => rw [Int.mul_emod, Int.emod_emod_of_dvd _ dvd_rfl]

/-- `zero` of the `mta` package. -/
def mtaZero : Int := 0

/-- `AliceInit`: forwards to the external `ProveRangeAlice` (outside the
analysed sources), in the argument order of the source call. -/
def aliceInit {A : Type} (proveRangeAlice : PublicKey → Int → Int → Int → Int → Int → Int → Except String A)
    (pkA : PublicKey) (a cA rA NTildeB h1B h2B : Int) : Except String A :=
  proveRangeAlice pkA cA NTildeB h1B h2B a rA

/-- The random draws of `BobMid`/`BobMidWC`: the `β'` sample (spec: drawn from
`Z_{q⁵}` by `GetRandomPositiveInt`), the Paillier encryption randomness, and
the prover tape for the inner `ProveBob`/`ProveBobWC`. -/
structure BobTape where
  betaPrm : Int
  encRand : Int
  prover : ProverTape

/-- `BobMid`: verifies Alice's range proof, draws `β'`, encrypts it, folds it
into `cB = HomoAdd(HomoMult(b, cA), Enc(β'))`, sets `β = (0 − β') mod q` and
proves the response with `ProveBob`.  The external `RangeProofAlice.Verify` is
a parameter; Paillier failures surface as errors. -/
def bobMid {A : Type} (S : PaillierScheme) (env : CurveEnv)
    (rangeVerify : A → PublicKey → Int → Int → Int → Int → Bool)
    (tape : BobTape) (pfA : A)
    (b cA NTildeA h1A h2A NTildeB h1B h2B : Int) :
    Except String (Int × Int × Int × ProofBob) :=
  if rangeVerify pfA S.pk NTildeB h1B h2B cA = false then
    .error "RangeProofAlice.Verify() returned false"
  else
    let q := env.q
    let betaPrm := tape.betaPrm
    match S.encrypt betaPrm tape.encRand with
    | none => .error "EncryptAndReturnRandomness() returned an error"
    | some cBetaPrm =>
      match S.homoMult b cA with
      | none => .error "HomoMult() returned an error"
      | some cB1 =>
        match S.homoAdd cB1 cBetaPrm with
        | none => .error "HomoAdd() returned an error"
        | some cB =>
          let beta := (mtaZero - betaPrm) % q
          match proveBob env tape.prover (some S.pk) (some NTildeA) (some h1A)
              (some h2A) (some cA) (some cB) (some b) (some betaPrm)
              (some tape.encRand) with
          | .error e => .error e
          | .ok piB => .ok (beta, cB, betaPrm, piB)

/-- `BobMidWC`: the with-check variant; returns `(β', cB, π_B)` with the
`ProveBobWC` proof bound to the point `B`. -/
def bobMidWC {A : Type} (S : PaillierScheme) (env : CurveEnv)
    (rangeVerify : A → PublicKey → Int → Int → Int → Int → Bool)
    (tape : BobTape) (pfA : A)
    (b cA NTildeA h1A h2A NTildeB h1B h2B : Int) (B : Option ECPoint) :
    Except String (Int × Int × ProofBobWC) :=
  if rangeVerify pfA S.pk NTildeB h1B h2B cA = false then
    .error "RangeProofAlice.Verify() returned false"
  else
    let betaPrm := tape.betaPrm
    match S.encrypt betaPrm tape.encRand with
    | none => .error "EncryptAndReturnRandomness() returned an error"
    | some cBetaPrm =>
      match S.homoMult b cA with
      | none => .error "HomoMult() returned an error"
      | some cB1 =>
        match S.homoAdd cB1 cBetaPrm with
        | none => .error "HomoAdd() returned an error"
        | some cB =>
          match proveBobWC env tape.prover (some S.pk) (some NTildeA) (some h1A)
              (some h2A) (some cA) (some cB) (some b) (some betaPrm)
              (some tape.encRand) B with
          | .error e => .error e
          | .ok piB => .ok (betaPrm, cB, piB)

/-- `AliceEnd`: verifies `π_B`, decrypts `cB` and reduces mod `q`.  The outer
`Option` propagates a panic inside `ProofBob.Verify` (nil proof fields). -/
def aliceEnd (S : PaillierScheme) (env : CurveEnv) (pf : Option ProofBob)
    (h1A h2A cA cB NTildeA : Int) : Option (Except String Int) :=
  match verifyBob env (some S.pk) (some NTildeA) (some h1A) (some h2A)
      (some cA) (some cB) pf with
  | none => none
  | some false => some (.error "ProofBob.Verify() returned false")
  | some true =>
    match S.decrypt cB with
    | none => some (.error "Decrypt() returned an error")
    | some m => some (.ok (m % env.q))

/-- `AliceEndWC`: verifies `π_B` with the bound point `B`, decrypts `cB`
recovering the randomness, and reduces mod `q`; returns `(μ, μRec, μRand)`. -/
def aliceEndWC (S : PaillierScheme) (env : CurveEnv) (pf : Option ProofBobWC)
    (B : Option ECPoint) (cA cB NTildeA h1A h2A : Int) :
    Option (Except String (Int × Int × Int)) :=
  match verifyBobWC env (some S.pk) (some NTildeA) (some h1A) (some h2A)
      (some cA) (some cB) pf B with
  | none => none
  | some false => some (.error "ProofBobWC.Verify() returned false")
  | some true =>
    match S.decryptFull cB with
    | none => some (.error "DecryptAndRecoverRandomness() returned an error")
    | some (m, rand) => some (.ok (m % env.q, m, rand))

/-- A party identity: moniker and key (`tss.PartyID`). -/
structure PartyID where
  moniker : String
  key : Int
deriving DecidableEq

/-- An ordered list of party identities (`tss.PeerContext`). -/
structure PeerContext where
  ids : List PartyID
deriving DecidableEq

/-- Modelled from the source: `time.Duration` counts nanoseconds and
`defaultSafePrimeGenTimeout = 5 * time.Minute` with `time.Minute = 60·10⁹`. -/
def defaultSafePrimeGenTimeout : Int := 5 * 60 * 1000000000

/-- `tss.Parameters`. -/
structure Parameters where
  partyID : PartyID
  parties : PeerContext
  partyCount : Int
  threshold : Int
  safePrimeGenTimeout : Int
  unsafeKGIgnoreH1H2Dupes : Bool
deriving DecidableEq

/-- `tss.NewParameters`: an empty optional-timeout list selects the default,
a single element selects that value, more than one element panics (`none`). -/
def newParameters (ctx : PeerContext) (partyID : PartyID)
    (partyCount threshold : Int) (optionalSafePrimeGenTimeout : List Int) :
    Option Parameters :=
  match optionalSafePrimeGenTimeout with
  | [] => some { partyID := partyID, parties := ctx, partyCount := partyCount,
                 threshold := threshold,
                 safePrimeGenTimeout := defaultSafePrimeGenTimeout,
                 unsafeKGIgnoreH1H2Dupes := false }
  | [d] => some { partyID := partyID, parties := ctx, partyCount := partyCount,
                  threshold := threshold, safePrimeGenTimeout := d,
                  unsafeKGIgnoreH1H2Dupes := false }
  | _ => none

/-- `tss.ReSharingParameters`. -/
structure ReSharingParameters where
  toParameters : Parameters
  newParties : PeerContext
  newPartyCount : Int
  newThreshold : Int
deriving DecidableEq

/-- `ReSharingParameters.OldParties`: the original parties. -/
def ReSharingParameters.oldParties (r : ReSharingParameters) : PeerContext :=
  r.toParameters.parties

/-- `ReSharingParameters.OldPartyCount`. -/
def ReSharingParameters.oldPartyCount (r : ReSharingParameters) : Int :=
  r.toParameters.partyCount

/-- `ReSharingParameters.OldAndNewParties`: old-committee IDs followed by
new-committee IDs. -/
def ReSharingParameters.oldAndNewParties (r : ReSharingParameters) : List PartyID :=
  r.oldParties.ids ++ r.newParties.ids

/-- `ReSharingParameters.OldAndNewPartyCount`. -/
def ReSharingParameters.oldAndNewPartyCount (r : ReSharingParameters) : Int :=
  r.oldPartyCount + r.newPartyCount

theorem chk_isSome {p : Prop} [Decidable p] {k : Option Bool} (h : k.isSome) :
    (chk p k).isSome := by
  unfold chk; split
  · exact h
  · rfl

theorem chk_true_elim {p : Prop} [Decidable p] {k : Option Bool}
    (h : chk p k = some true) : p ∧ k = some true := by
  unfold chk at h; split at h
  · exact ⟨by assumption, h⟩
  · simp at h

theorem verifyTail_isSome (pk : PublicKey)
    (NTilde h1 h2 c1 c2 zv zpv tv vv wv sv s1v t1v s2v t2v e : Int) :
    (verifyTail pk NTilde h1 h2 c1 c2 zv zpv tv vv wv sv s1v t1v
      (some s2v) (some t2v) e).isSome := by
  unfold verifyTail
  simp only [Option.some_bind]
  apply chk_isSome
  apply chk_isSome
  apply chk_isSome
  rfl

theorem proveBobWC_ok (env : CurveEnv) (tape : ProverTape) (pkv : PublicKey)
    (ntv h1v h2v c1v c2v xv yv rv : Int) (X : Option ECPoint) :
    proveBobWC env tape (some pkv) (some ntv) (some h1v) (some h2v) (some c1v)
      (some c2v) (some xv) (some yv) (some rv) X
      = .ok (proveBobWCCore env tape pkv ntv h1v h2v c1v c2v xv yv rv X) := rfl

theorem verifyBobWCCore_isSome (env : CurveEnv) (pk : PublicKey)
    (NTilde h1 h2 c1 c2 : Int) (pf : ProofBobWC) (X : Option ECPoint)
    (zv zpv tv vv wv sv s1v s2v t1v t2v : Int)
    (hZ : pf.toProofBob.Z = some zv) (hZPrm : pf.toProofBob.ZPrm = some zpv)
    (hT : pf.toProofBob.T = some tv) (hV : pf.toProofBob.V = some vv)
    (hW : pf.toProofBob.W = some wv) (hS : pf.toProofBob.S = some sv)
    (hS1 : pf.toProofBob.S1 = some s1v) (hS2 : pf.toProofBob.S2 = some s2v)
    (hT1 : pf.toProofBob.T1 = some t1v) (hT2 : pf.toProofBob.T2 = some t2v)
    (hU : ∀ Xp, X = some Xp → ∃ u, pf.U = some u) :
    (verifyBobWCCore env pk NTilde h1 h2 c1 c2 (some pf) X).isSome := by
  unfold verifyBobWCCore
  simp only [hZ, hZPrm, hT, hV, hW, hS, hS1, hS2, hT1, hT2, Option.some_bind]
  repeat apply chk_isSome
  cases X with
  | none => exact verifyTail_isSome pk NTilde h1 h2 c1 c2 zv zpv tv vv wv sv s1v t1v s2v t2v _
  | some Xp =>
    obtain ⟨u, hu⟩ := hU Xp rfl
    simp only [hu, Option.some_bind]
    cases haddp : env.addPoints
        (env.scalarMult (env.hash (pkAsInts pk
          ++ [Xp.x, Xp.y, c1, c2, u.x, u.y, zv, zpv, tv, vv, wv]) % env.q) Xp) u with
    | none => simp [haddp]
    | some xEU =>
      simp only [haddp]
      apply chk_isSome
      exact verifyTail_isSome pk NTilde h1 h2 c1 c2 zv zpv tv vv wv sv s1v t1v s2v t2v _

theorem verifyBobWCCore_true_check4 (env : CurveEnv) (pk : PublicKey)
    (NTilde h1 h2 c1 c2 : Int) (pf : ProofBobWC) (Xp : ECPoint)
    (zv zpv tv vv wv sv s1v s2v t1v t2v : Int) (u : ECPoint)
    (hZ : pf.toProofBob.Z = some zv) (hZPrm : pf.toProofBob.ZPrm = some zpv)
    (hT : pf.toProofBob.T = some tv) (hV : pf.toProofBob.V = some vv)
    (hW : pf.toProofBob.W = some wv) (hS : pf.toProofBob.S = some sv)
    (hS1 : pf.toProofBob.S1 = some s1v) (hS2 : pf.toProofBob.S2 = some s2v)
    (hT1 : pf.toProofBob.T1 = some t1v) (hT2 : pf.toProofBob.T2 = some t2v)
    (hU : pf.U = some u)
    (h : verifyBobWCCore env pk NTilde h1 h2 c1 c2 (some pf) (some Xp) = some true) :
    env.addPoints
      (env.scalarMult (env.hash (pkAsInts pk
        ++ [Xp.x, Xp.y, c1, c2, u.x, u.y, zv, zpv, tv, vv, wv]) % env.q) Xp) u
      = some (env.scalarBaseMult (s1v % env.q)) := by
  unfold verifyBobWCCore at h
  simp only [hZ, hZPrm, hT, hV, hW, hS, hS1, hS2, hT1, hT2, hU,
    Option.some_bind] at h
  iterate 17 replace h := (chk_true_elim h).2
  rcases haddp : env.addPoints
      (env.scalarMult (env.hash (pkAsInts pk
        ++ [Xp.x, Xp.y, c1, c2, u.x, u.y, zv, zpv, tv, vv, wv]) % env.q) Xp) u
      with _ | xEU
  · rw [haddp] at h
    simp at h
  · rw [haddp] at h
    have hgs := (chk_true_elim h).1
    rw [hgs]

theorem natSetBytes_append_one (l : List Nat) (b : Nat) :
    natSetBytes (l ++ [b]) = natSetBytes l * 256 + b := by
  unfold natSetBytes
  rw [List.foldl_append]
  rfl

theorem natSetBytes_natBytesAux (f n : Nat) (hle : n ≤ f) :
    natSetBytes (natBytesAux f n) = n := by
  induction f generalizing n with
  | zero =>
    have hn : n = 0 := by omega
    subst hn
    rfl
  | succ f ih =>
    unfold natBytesAux
    split
    · rename_i hn
      subst hn
      rfl
    · rename_i hn
      have hdiv : n / 256 ≤ f := by
        have := Nat.div_lt_self (Nat.pos_of_ne_zero hn) (by omega : 1 < 256)
        omega
      rw [natSetBytes_append_one, ih (n / 256) hdiv]
      omega

theorem intSetBytes_intBytes (n : Int) (hn : 0 ≤ n) :
    intSetBytes (intBytes n) = n := by
  unfold intSetBytes intBytes
  rw [natSetBytes_natBytesAux n.natAbs n.natAbs le_rfl]
  exact Int.natAbs_of_nonneg hn

theorem intBytes_ne_nil (n : Int) (hn : 0 < n) : intBytes n ≠ [] := by
  unfold intBytes
  have hpos : 0 < n.natAbs := by
    rw [Int.natAbs_pos]
    omega
  cases hab : n.natAbs with
  | zero => omega
  | succ m =>
    unfold natBytesAux
    simp

/-- `isErr` discriminates the error constructor of `Except`. -/
def isErr {α : Type} (e : Except String α) : Bool :=
  match e with
  | .error _ => true
  | .ok _ => false

/-- A small concrete curve environment used to instantiate theorems at
executable inputs: order 3, the group carried on the x coordinate, and a
constant-zero challenge hash. -/
def cexEnv : CurveEnv where
  q := 3
  qpos := by norm_num
  onCurve := fun _ _ => true
  scalarBaseMult := fun k => ⟨k % 3, 0⟩
  scalarMult := fun e P => ⟨(e * P.x) % 3, 0⟩
  addPoints := fun P Q => some ⟨(P.x + Q.x) % 3, (P.y + Q.y) % 3⟩
  hash := fun _ => 0

/-- Like `cexEnv` with a constant-one challenge hash. -/
def cexEnv1 : CurveEnv where
  q := 3
  qpos := by norm_num
  onCurve := fun _ _ => true
  scalarBaseMult := fun k => ⟨k % 3, 0⟩
  scalarMult := fun e P => ⟨(e * P.x) % 3, 0⟩
  addPoints := fun P Q => some ⟨(P.x + Q.x) % 3, (P.y + Q.y) % 3⟩
  hash := fun _ => 1

/-- A concrete Paillier scheme instance with modulus 2. -/
def cexScheme : PaillierScheme := modelScheme 2 (by norm_num)

/-- A prover tape with every draw equal to 1. -/
def allOneTape : ProverTape := ⟨1, 1, 1, 1, 1, 1, 1⟩

/-- A complete proof with every integer field 1 and `U = (1, 1)`. -/
def pfOnes : ProofBobWC :=
  ⟨⟨some 1, some 1, some 1, some 1, some 1, some 1, some 1, some 1, some 1, some 1⟩,
   some ⟨1, 1⟩⟩

/-- C9: `NewParameters` with no optional timeout yields a 5-minute
`SafePrimeGenTimeout` (in nanoseconds); with exactly one optional value it
yields that value. -/
theorem newParameters_safePrimeGenTimeout (ctx : PeerContext) (pid : PartyID)
    (n t d : Int) :
    (newParameters ctx pid n t []).map Parameters.safePrimeGenTimeout
      = some (5 * 60 * 1000000000)
    ∧ (newParameters ctx pid n t [d]).map Parameters.safePrimeGenTimeout = some d := by
  constructor <;> rfl

/-- C10: `OldAndNewParties` is the old-committee IDs followed by the
new-committee IDs, `OldAndNewPartyCount` is `partyCount + newPartyCount`, and
a party present in both committees occurs at least twice in the combined
list. -/
theorem oldAndNewParties_double_count (r : ReSharingParameters) :
    r.oldAndNewParties = r.toParameters.parties.ids ++ r.newParties.ids
    ∧ r.oldAndNewPartyCount = r.toParameters.partyCount + r.newPartyCount
    ∧ ∀ p : PartyID, p ∈ r.toParameters.parties.ids → p ∈ r.newParties.ids →
        2 ≤ r.oldAndNewParties.count p := by
  refine ⟨rfl, rfl, ?_⟩
  intro p hold hnew
  unfold ReSharingParameters.oldAndNewParties ReSharingParameters.oldParties
  rw [List.count_append]
  have h1 := List.count_pos_iff.mpr hold
  have h2 := List.count_pos_iff.mpr hnew
  omega

/-- A two-party resharing configuration where party `"a"` sits in both the old
and the new committee. -/
def rsOverlap : ReSharingParameters :=
  { toParameters :=
    { partyID := ⟨"a", 1⟩, parties := ⟨[⟨"a", 1⟩, ⟨"b", 2⟩]⟩, partyCount := 2,
      threshold := 1, safePrimeGenTimeout := defaultSafePrimeGenTimeout,
      unsafeKGIgnoreH1H2Dupes := false }
  , newParties := ⟨[⟨"a", 1⟩]⟩, newPartyCount := 1, newThreshold := 0 }

theorem oldAndNewParties_double_count_witness :
    2 ≤ rsOverlap.oldAndNewParties.count ⟨"a", 1⟩ :=
  (oldAndNewParties_double_count rsOverlap).2.2 ⟨"a", 1⟩ (by decide) (by decide)

/-- C6: `ProveBobWC` errors exactly when one of its nine required arguments is
nil — the point `X` may be absent without an error — and `ProveBob` is the
without-check projection of `ProveBobWC` run with an absent `X`. -/
theorem proveBobWC_nil_argument_policy (env : CurveEnv) (tape : ProverTape)
    (pk : Option PublicKey) (NTilde h1 h2 c1 c2 x y r : Option Int)
    (X : Option ECPoint) :
    (isErr (proveBobWC env tape pk NTilde h1 h2 c1 c2 x y r X) = true
      ↔ (pk = none ∨ NTilde = none ∨ h1 = none ∨ h2 = none ∨ c1 = none
          ∨ c2 = none ∨ x = none ∨ y = none ∨ r = none))
    ∧ proveBob env tape pk NTilde h1 h2 c1 c2 x y r
        = Except.map ProofBobWC.toProofBob
            (proveBobWC env tape pk NTilde h1 h2 c1 c2 x y r none) := by
  constructor
  · cases pk with
    | none => simp [proveBobWC, isErr]
    | some pkv =>
    cases NTilde with
    | none => simp [proveBobWC, isErr]
    | some ntv =>
    cases h1 with
    | none => simp [proveBobWC, isErr]
    | some h1v =>
    cases h2 with
    | none => simp [proveBobWC, isErr]
    | some h2v =>
    cases c1 with
    | none => simp [proveBobWC, isErr]
    | some c1v =>
    cases c2 with
    | none => simp [proveBobWC, isErr]
    | some c2v =>
    cases x with
    | none => simp [proveBobWC, isErr]
    | some xv =>
    cases y with
    | none => simp [proveBobWC, isErr]
    | some yv =>
    cases r with
    | none => simp [proveBobWC, isErr]
    | some rv => simp [proveBobWC, isErr]
  · cases hres : proveBobWC env tape pk NTilde h1 h2 c1 c2 x y r none with
    | error e => simp [proveBob, hres, Except.map]
    | ok pf => simp [proveBob, hres, Except.map]

theorem proofBobBytes_eq (pf : ProofBob)
    (zv zpv tv vv wv sv s1v s2v t1v t2v : Int)
    (hZ : pf.Z = some zv) (hZPrm : pf.ZPrm = some zpv) (hT : pf.T = some tv)
    (hV : pf.V = some vv) (hW : pf.W = some wv) (hS : pf.S = some sv)
    (hS1 : pf.S1 = some s1v) (hS2 : pf.S2 = some s2v) (hT1 : pf.T1 = some t1v)
    (hT2 : pf.T2 = some t2v) :
    proofBobBytes pf = some [intBytes zv, intBytes zpv, intBytes tv, intBytes vv,
      intBytes wv, intBytes sv, intBytes s1v, intBytes s2v, intBytes t1v,
      intBytes t2v] := by
  unfold proofBobBytes
  rw [hZ, hZPrm, hT, hV, hW, hS, hS1, hS2, hT1, hT2]
  rfl

/-- C7: `ProofBob.Bytes` yields exactly the 10 parts
`(Z, ZPrm, T, V, W, S, S1, S2, T1, T2)` in order; `ProofBobWC.Bytes` appends
`U.X` and `U.Y` as parts 10 and 11 for exactly 12 parts; and
`ProofBobFromBytes` succeeds precisely on 10 or 12 non-empty parts. -/
theorem bob_proof_wire_encoding :
    (∀ (pf : ProofBob) (zv zpv tv vv wv sv s1v s2v t1v t2v : Int),
      pf.Z = some zv → pf.ZPrm = some zpv → pf.T = some tv → pf.V = some vv →
      pf.W = some wv → pf.S = some sv → pf.S1 = some s1v → pf.S2 = some s2v →
      pf.T1 = some t1v → pf.T2 = some t2v →
      proofBobBytes pf = some [intBytes zv, intBytes zpv, intBytes tv,
        intBytes vv, intBytes wv, intBytes sv, intBytes s1v, intBytes s2v,
        intBytes t1v, intBytes t2v]
      ∧ ∀ l, proofBobBytes pf = some l → l.length = ProofBobBytesParts)
    ∧ (∀ (pf : ProofBobWC) (l : List (List Nat)) (u : ECPoint),
        proofBobBytes pf.toProofBob = some l → pf.U = some u →
        proofBobWCBytes pf = some (l ++ [intBytes u.x, intBytes u.y])
        ∧ ∀ lwc, proofBobWCBytes pf = some lwc →
            lwc.length = ProofBobWCBytesParts
            ∧ lwc.getD 10 [] = intBytes u.x ∧ lwc.getD 11 [] = intBytes u.y)
    ∧ (∀ bzs : List (List Nat),
        isErr (proofBobFromBytes bzs) = false
          ↔ (nonEmptyMultiBytes bzs ProofBobBytesParts = true
             ∨ nonEmptyMultiBytes bzs ProofBobWCBytesParts = true)) := by
  refine ⟨?_, ?_, ?_⟩
  · intro pf zv zpv tv vv wv sv s1v s2v t1v t2v hZ hZPrm hT hV hW hS hS1 hS2 hT1 hT2
    have hbytes := proofBobBytes_eq pf zv zpv tv vv wv sv s1v s2v t1v t2v
      hZ hZPrm hT hV hW hS hS1 hS2 hT1 hT2
    refine ⟨hbytes, ?_⟩
    intro l hl
    rw [hbytes] at hl
    cases hl
    rfl
  · intro pf l u hl hU
    have hwc : proofBobWCBytes pf = some (l ++ [intBytes u.x, intBytes u.y]) := by
      unfold proofBobWCBytes
      rw [hl, hU]
      rfl
    refine ⟨hwc, ?_⟩
    intro lwc hlwc
    rw [hwc] at hlwc
    cases hlwc
    have hlen : l.length = 10 := by
      rcases hb : pf.toProofBob.Z with _ | zv
      · rw [proofBobBytes, hb] at hl
        simp at hl
      · rcases hb2 : pf.toProofBob.ZPrm with _ | zpv
        · rw [proofBobBytes, hb, hb2] at hl
          simp at hl
        · rcases hb3 : pf.toProofBob.T with _ | tv
          · rw [proofBobBytes, hb, hb2, hb3] at hl
            simp at hl
          · rcases hb4 : pf.toProofBob.V with _ | vv
            · rw [proofBobBytes, hb, hb2, hb3, hb4] at hl
              simp at hl
            · rcases hb5 : pf.toProofBob.W with _ | wv
              · rw [proofBobBytes, hb, hb2, hb3, hb4, hb5] at hl
                simp at hl
              · rcases hb6 : pf.toProofBob.S with _ | sv
                · rw [proofBobBytes, hb, hb2, hb3, hb4, hb5, hb6] at hl
                  simp at hl
                · rcases hb7 : pf.toProofBob.S1 with _ | s1v
                  · rw [proofBobBytes, hb, hb2, hb3, hb4, hb5, hb6, hb7] at hl
                    simp at hl
                  · rcases hb8 : pf.toProofBob.S2 with _ | s2v
                    · rw [proofBobBytes, hb, hb2, hb3, hb4, hb5, hb6, hb7, hb8] at hl
                      simp at hl
                    · rcases hb9 : pf.toProofBob.T1 with _ | t1v
                      · rw [proofBobBytes, hb, hb2, hb3, hb4, hb5, hb6, hb7, hb8,
                          hb9] at hl
                        simp at hl
                      · rcases hb10 : pf.toProofBob.T2 with _ | t2v
                        · rw [proofBobBytes, hb, hb2, hb3, hb4, hb5, hb6, hb7, hb8,
                            hb9, hb10] at hl
                          simp at hl
                        · have := proofBobBytes_eq pf.toProofBob zv zpv tv vv wv sv
                            s1v s2v t1v t2v hb hb2 hb3 hb4 hb5 hb6 hb7 hb8 hb9 hb10
                          rw [this] at hl
                          cases hl
                          rfl
    refine ⟨?_, ?_, ?_⟩
    · simp [hlen, ProofBobWCBytesParts]
    · rw [List.getD_eq_getElem?_getD]
      rw [List.getElem?_append_right (by omega)]
      simp [hlen]
    · rw [List.getD_eq_getElem?_getD]
      rw [List.getElem?_append_right (by omega)]
      simp [hlen]
  · intro bzs
    unfold proofBobFromBytes
    split
    · rename_i hcond
      simp only [Bool.and_eq_true, Bool.not_eq_true'] at hcond
      simp [isErr, hcond.1, hcond.2]
    · rename_i hcond
      simp only [Bool.and_eq_true, Bool.not_eq_true'] at hcond
      have hdisj : nonEmptyMultiBytes bzs ProofBobBytesParts = true
          ∨ nonEmptyMultiBytes bzs ProofBobWCBytesParts = true := by
        rcases hA : nonEmptyMultiBytes bzs ProofBobBytesParts <;>
          rcases hB : nonEmptyMultiBytes bzs ProofBobWCBytesParts <;>
          simp_all
      simp [isErr, hdisj]

theorem intBytes_isEmpty_false (n : Int) (hn : 0 < n) :
    (intBytes n).isEmpty = false := by
  rcases h : intBytes n with _ | ⟨a, l⟩
  · exact absurd h (intBytes_ne_nil n hn)
  · rfl

/-- C8: serializing a `ProofBobWC` whose ten integer components are positive
and whose `U` is an on-curve point with positive coordinates, then
deserializing the 12 parts, succeeds and returns the same proof. -/
theorem bob_proof_wc_roundtrip (env : CurveEnv) (pf : ProofBobWC)
    (zv zpv tv vv wv sv s1v s2v t1v t2v : Int) (u : ECPoint)
    (hZ : pf.toProofBob.Z = some zv) (hZPrm : pf.toProofBob.ZPrm = some zpv)
    (hT : pf.toProofBob.T = some tv) (hV : pf.toProofBob.V = some vv)
    (hW : pf.toProofBob.W = some wv) (hS : pf.toProofBob.S = some sv)
    (hS1 : pf.toProofBob.S1 = some s1v) (hS2 : pf.toProofBob.S2 = some s2v)
    (hT1 : pf.toProofBob.T1 = some t1v) (hT2 : pf.toProofBob.T2 = some t2v)
    (hU : pf.U = some u)
    (hz : 0 < zv) (hzp : 0 < zpv) (ht : 0 < tv) (hv : 0 < vv) (hw : 0 < wv)
    (hs : 0 < sv) (hs1 : 0 < s1v) (hs2 : 0 < s2v) (ht1 : 0 < t1v)
    (ht2 : 0 < t2v) (hux : 0 < u.x) (huy : 0 < u.y)
    (hcurve : env.onCurve u.x u.y = true) :
    ∃ bz, proofBobWCBytes pf = some bz
      ∧ proofBobWCFromBytes env bz = some (.ok pf) := by
  obtain ⟨pb, U0⟩ := pf
  obtain ⟨Z0, ZP0, T0, V0, W0, S0, S10, S20, T10, T20⟩ := pb
  obtain ⟨ux, uy⟩ := u
  simp only at hZ hZPrm hT hV hW hS hS1 hS2 hT1 hT2 hU hux huy hcurve
  subst hZ hZPrm hT hV hW hS hS1 hS2 hT1 hT2 hU
  have hB : nonEmptyMultiBytes [intBytes zv, intBytes zpv, intBytes tv,
      intBytes vv, intBytes wv, intBytes sv, intBytes s1v, intBytes s2v,
      intBytes t1v, intBytes t2v, intBytes ux, intBytes uy]
      ProofBobWCBytesParts = true := by
    unfold nonEmptyMultiBytes
    simp [intBytes_isEmpty_false zv hz, intBytes_isEmpty_false zpv hzp,
      intBytes_isEmpty_false tv ht, intBytes_isEmpty_false vv hv,
      intBytes_isEmpty_false wv hw, intBytes_isEmpty_false sv hs,
      intBytes_isEmpty_false s1v hs1, intBytes_isEmpty_false s2v hs2,
      intBytes_isEmpty_false t1v ht1, intBytes_isEmpty_false t2v ht2,
      intBytes_isEmpty_false ux hux, intBytes_isEmpty_false uy huy,
      ProofBobWCBytesParts]
  refine ⟨[intBytes zv, intBytes zpv, intBytes tv, intBytes vv, intBytes wv,
    intBytes sv, intBytes s1v, intBytes s2v, intBytes t1v, intBytes t2v,
    intBytes ux, intBytes uy], rfl, ?_⟩
  unfold proofBobWCFromBytes proofBobFromBytes
  rw [hB]
  simp [newECPoint, hcurve,
    intSetBytes_intBytes zv (le_of_lt hz), intSetBytes_intBytes zpv (le_of_lt hzp),
    intSetBytes_intBytes tv (le_of_lt ht), intSetBytes_intBytes vv (le_of_lt hv),
    intSetBytes_intBytes wv (le_of_lt hw), intSetBytes_intBytes sv (le_of_lt hs),
    intSetBytes_intBytes s1v (le_of_lt hs1), intSetBytes_intBytes s2v (le_of_lt hs2),
    intSetBytes_intBytes t1v (le_of_lt ht1), intSetBytes_intBytes t2v (le_of_lt ht2),
    intSetBytes_intBytes ux (le_of_lt hux), intSetBytes_intBytes uy (le_of_lt huy)]

theorem bob_proof_wire_encoding_witness :
    proofBobBytes pfOnes.toProofBob = some [intBytes 1, intBytes 1, intBytes 1,
      intBytes 1, intBytes 1, intBytes 1, intBytes 1, intBytes 1, intBytes 1,
      intBytes 1]
    ∧ proofBobWCBytes pfOnes = some ([intBytes 1, intBytes 1, intBytes 1,
      intBytes 1, intBytes 1, intBytes 1, intBytes 1, intBytes 1, intBytes 1,
      intBytes 1] ++ [intBytes 1, intBytes 1]) := by
  refine ⟨?_, ?_⟩
  · exact (bob_proof_wire_encoding.1 pfOnes.toProofBob 1 1 1 1 1 1 1 1 1 1
      rfl rfl rfl rfl rfl rfl rfl rfl rfl rfl).1
  · exact (bob_proof_wire_encoding.2.1 pfOnes _ ⟨1, 1⟩
      (bob_proof_wire_encoding.1 pfOnes.toProofBob 1 1 1 1 1 1 1 1 1 1
        rfl rfl rfl rfl rfl rfl rfl rfl rfl rfl).1 rfl).1

theorem bob_proof_wc_roundtrip_witness :
    ∃ bz, proofBobWCBytes pfOnes = some bz
      ∧ proofBobWCFromBytes cexEnv bz = some (.ok pfOnes) :=
  bob_proof_wc_roundtrip cexEnv pfOnes 1 1 1 1 1 1 1 1 1 1 ⟨1, 1⟩
    rfl rfl rfl rfl rfl rfl rfl rfl rfl rfl rfl
    one_pos one_pos one_pos one_pos one_pos one_pos one_pos one_pos one_pos
    one_pos one_pos one_pos rfl

/-- C5 (amended): both verifiers return a boolean whenever the proof object is
complete — the receiver is non-nil, its ten integer fields are non-nil, and
`U` is non-nil when verifying with a point — and `ProofBob.Verify` returns
`false` on a nil receiver.  (A nil `ProofBobWC` receiver, a nil field, or a
nil `U` in a with-check call dereferences nil instead: see the
counterexample.) -/
theorem verify_total_on_complete_proofs :
    (∀ (env : CurveEnv) (pk : Option PublicKey) (NTilde h1 h2 c1 c2 : Option Int)
        (pf : ProofBobWC) (X : Option ECPoint)
        (zv zpv tv vv wv sv s1v s2v t1v t2v : Int),
      pf.toProofBob.Z = some zv → pf.toProofBob.ZPrm = some zpv →
      pf.toProofBob.T = some tv → pf.toProofBob.V = some vv →
      pf.toProofBob.W = some wv → pf.toProofBob.S = some sv →
      pf.toProofBob.S1 = some s1v → pf.toProofBob.S2 = some s2v →
      pf.toProofBob.T1 = some t1v → pf.toProofBob.T2 = some t2v →
      (∀ Xp, X = some Xp → ∃ u, pf.U = some u) →
      (verifyBobWC env pk NTilde h1 h2 c1 c2 (some pf) X).isSome)
    ∧ (∀ (env : CurveEnv) (pk : Option PublicKey) (NTilde h1 h2 c1 c2 : Option Int),
        verifyBob env pk NTilde h1 h2 c1 c2 none = some false)
    ∧ (∀ (env : CurveEnv) (pk : Option PublicKey) (NTilde h1 h2 c1 c2 : Option Int)
        (pf : ProofBob) (zv zpv tv vv wv sv s1v s2v t1v t2v : Int),
        pf.Z = some zv → pf.ZPrm = some zpv → pf.T = some tv → pf.V = some vv →
        pf.W = some wv → pf.S = some sv → pf.S1 = some s1v → pf.S2 = some s2v →
        pf.T1 = some t1v → pf.T2 = some t2v →
        (verifyBob env pk NTilde h1 h2 c1 c2 (some pf)).isSome) := by
  have main : ∀ (env : CurveEnv) (pk : Option PublicKey)
      (NTilde h1 h2 c1 c2 : Option Int) (pf : ProofBobWC) (X : Option ECPoint)
      (zv zpv tv vv wv sv s1v s2v t1v t2v : Int),
      pf.toProofBob.Z = some zv → pf.toProofBob.ZPrm = some zpv →
      pf.toProofBob.T = some tv → pf.toProofBob.V = some vv →
      pf.toProofBob.W = some wv → pf.toProofBob.S = some sv →
      pf.toProofBob.S1 = some s1v → pf.toProofBob.S2 = some s2v →
      pf.toProofBob.T1 = some t1v → pf.toProofBob.T2 = some t2v →
      (∀ Xp, X = some Xp → ∃ u, pf.U = some u) →
      (verifyBobWC env pk NTilde h1 h2 c1 c2 (some pf) X).isSome := by
    intro env pk NTilde h1 h2 c1 c2 pf X zv zpv tv vv wv sv s1v s2v t1v t2v
      hZ hZPrm hT hV hW hS hS1 hS2 hT1 hT2 hU
    cases pk with
    | none => rfl
    | some pkv =>
    cases NTilde with
    | none => rfl
    | some ntv =>
    cases h1 with
    | none => rfl
    | some h1v =>
    cases h2 with
    | none => rfl
    | some h2v =>
    cases c1 with
    | none => rfl
    | some c1v =>
    cases c2 with
    | none => rfl
    | some c2v =>
      exact verifyBobWCCore_isSome env pkv ntv h1v h2v c1v c2v pf X
        zv zpv tv vv wv sv s1v s2v t1v t2v hZ hZPrm hT hV hW hS hS1 hS2 hT1 hT2 hU
  refine ⟨main, ?_, ?_⟩
  · intro env pk NTilde h1 h2 c1 c2
    rfl
  · intro env pk NTilde h1 h2 c1 c2 pf zv zpv tv vv wv sv s1v s2v t1v t2v
      hZ hZPrm hT hV hW hS hS1 hS2 hT1 hT2
    exact main env pk NTilde h1 h2 c1 c2 ⟨pf, none⟩ none
      zv zpv tv vv wv sv s1v s2v t1v t2v hZ hZPrm hT hV hW hS hS1 hS2 hT1 hT2
      (fun Xp h => nomatch h)

theorem verify_nil_receiver_panics_cex :
    verifyBobWC cexEnv (some ⟨2⟩) (some 5) (some 2) (some 3) (some 1) (some 1)
      none (some ⟨1, 0⟩) = none := rfl

theorem verify_total_on_complete_proofs_witness :
    (verifyBobWC cexEnv (some ⟨2⟩) (some 5) (some 2) (some 3) (some 1) (some 1)
      (some pfOnes) (some ⟨0, 0⟩)).isSome
    ∧ verifyBob cexEnv (some ⟨2⟩) (some 5) (some 2) (some 3) (some 1) (some 1)
        none = some false
    ∧ (verifyBob cexEnv (some ⟨2⟩) (some 5) (some 2) (some 3) (some 1) (some 1)
        (some pfOnes.toProofBob)).isSome :=
  ⟨verify_total_on_complete_proofs.1 cexEnv (some ⟨2⟩) (some 5) (some 2)
      (some 3) (some 1) (some 1) pfOnes (some ⟨0, 0⟩) 1 1 1 1 1 1 1 1 1 1
      rfl rfl rfl rfl rfl rfl rfl rfl rfl rfl (fun Xp _ => ⟨⟨1, 1⟩, rfl⟩),
   verify_total_on_complete_proofs.2.1 cexEnv (some ⟨2⟩) (some 5) (some 2)
      (some 3) (some 1) (some 1),
   verify_total_on_complete_proofs.2.2 cexEnv (some ⟨2⟩) (some 5) (some 2)
      (some 3) (some 1) (some 1) pfOnes.toProofBob 1 1 1 1 1 1 1 1 1 1
      rfl rfl rfl rfl rfl rfl rfl rfl rfl rfl⟩

/-- The proof produced by `ProveBobWC` under `cexEnv` on the all-one tape with
`pk.N = 2`, `NTilde = 5`, `h1 = 2`, `h2 = 3`, `c1 = c2 = 1`, witness
`x = y = r = 1` and the bound point `X = (1, 0)`. -/
def pfC3 : ProofBobWC :=
  ⟨⟨some 1, some 1, some 1, some 3, some 1, some 1, some 1, some 1, some 1, some 1⟩,
   some ⟨1, 0⟩⟩

/-- C3 (counterexample): an honestly generated with-check proof whose
Fiat-Shamir challenge happens to be `0` (here: a degenerate challenge
function) verifies against a point different from the one it was produced
with, so altering `X` does not always make `Verify` return `false`. -/
theorem verify_altered_point_accept_cex :
    proveBobWC cexEnv allOneTape (some ⟨2⟩) (some 5) (some 2) (some 3) (some 1)
      (some 1) (some 1) (some 1) (some 1) (some ⟨1, 0⟩) = .ok pfC3
    ∧ verifyBobWC cexEnv (some ⟨2⟩) (some 5) (some 2) (some 3) (some 1) (some 1)
        (some pfC3) (some ⟨2, 0⟩) = some true
    ∧ (⟨2, 0⟩ : ECPoint) ≠ (⟨1, 0⟩ : ECPoint) := by
  refine ⟨rfl, by decide, by decide⟩

/-- C3 (amended): `Verify` recomputes the challenge `e'` over the supplied
point `X'`; it returns `false` for every `X'` for which the with-check
equation `(s1 mod q)·G = e'·X' + U` fails.  Rejection of every `X' ≠ X` is
only computational: it requires the two challenge hashes to differ usefully
(see the counterexample, where a zero challenge makes the check independent
of `X'`). -/
theorem verify_altered_point_rejects (env : CurveEnv) (pk : PublicKey)
    (NTilde h1 h2 c1 c2 : Int) (pf : ProofBobWC) (Xp : ECPoint)
    (zv zpv tv vv wv sv s1v s2v t1v t2v : Int) (u : ECPoint)
    (hZ : pf.toProofBob.Z = some zv) (hZPrm : pf.toProofBob.ZPrm = some zpv)
    (hT : pf.toProofBob.T = some tv) (hV : pf.toProofBob.V = some vv)
    (hW : pf.toProofBob.W = some wv) (hS : pf.toProofBob.S = some sv)
    (hS1 : pf.toProofBob.S1 = some s1v) (hS2 : pf.toProofBob.S2 = some s2v)
    (hT1 : pf.toProofBob.T1 = some t1v) (hT2 : pf.toProofBob.T2 = some t2v)
    (hU : pf.U = some u)
    (hneq : env.addPoints
        (env.scalarMult (env.hash (pkAsInts pk
          ++ [Xp.x, Xp.y, c1, c2, u.x, u.y, zv, zpv, tv, vv, wv]) % env.q) Xp) u
        ≠ some (env.scalarBaseMult (s1v % env.q))) :
    verifyBobWC env (some pk) (some NTilde) (some h1) (some h2) (some c1)
      (some c2) (some pf) (some Xp) = some false := by
  have htot := verifyBobWCCore_isSome env pk NTilde h1 h2 c1 c2 pf (some Xp)
    zv zpv tv vv wv sv s1v s2v t1v t2v hZ hZPrm hT hV hW hS hS1 hS2 hT1 hT2
    (fun _ _ => ⟨u, hU⟩)
  show verifyBobWCCore env pk NTilde h1 h2 c1 c2 (some pf) (some Xp) = some false
  rcases Option.isSome_iff_exists.mp htot with ⟨b, hb⟩
  cases b
  · exact hb
  · exact absurd (verifyBobWCCore_true_check4 env pk NTilde h1 h2 c1 c2 pf Xp
      zv zpv tv vv wv sv s1v s2v t1v t2v u hZ hZPrm hT hV hW hS hS1 hS2 hT1 hT2
      hU hb) hneq

theorem verify_altered_point_rejects_witness :
    verifyBobWC cexEnv1 (some ⟨2⟩) (some 5) (some 2) (some 3) (some 1) (some 1)
      (some pfOnes) (some ⟨0, 0⟩) = some false :=
  verify_altered_point_rejects cexEnv1 ⟨2⟩ 5 2 3 1 1 pfOnes ⟨0, 0⟩
    1 1 1 1 1 1 1 1 1 1 ⟨1, 1⟩
    rfl rfl rfl rfl rfl rfl rfl rfl rfl rfl rfl (by decide)

/-- C2: whenever Alice's range proof verifies and no Paillier operation
errors, `BobMid` returns `β' = tape.betaPrm` (drawn from `[0, q⁵)`),
`cB = HomoAdd(HomoMult(b, cA), Enc(β'))`, `β = (0 − β') mod q ∈ [0, q)`, and
the proof produced by `ProveBob` on witness `(b, β', r')`. -/
theorem bobMid_success_path {A : Type} (S : PaillierScheme) (env : CurveEnv)
    (rangeVerify : A → PublicKey → Int → Int → Int → Int → Bool)
    (tape : BobTape) (pfA : A) (b cA NTildeA h1A h2A NTildeB h1B h2B : Int)
    (cBetaPrm cB1 cB : Int)
    (hverify : rangeVerify pfA S.pk NTildeB h1B h2B cA = true)
    (henc : S.encrypt tape.betaPrm tape.encRand = some cBetaPrm)
    (hmul : S.homoMult b cA = some cB1)
    (hadd : S.homoAdd cB1 cBetaPrm = some cB)
    (hdraw : 0 ≤ tape.betaPrm
      ∧ tape.betaPrm < ((env.q * env.q) * (env.q * env.q)) * env.q) :
    ∃ piB,
      bobMid S env rangeVerify tape pfA b cA NTildeA h1A h2A NTildeB h1B h2B
        = .ok ((mtaZero - tape.betaPrm) % env.q, cB, tape.betaPrm, piB)
      ∧ proveBob env tape.prover (some S.pk) (some NTildeA) (some h1A)
          (some h2A) (some cA) (some cB) (some b) (some tape.betaPrm)
          (some tape.encRand) = .ok piB
      ∧ 0 ≤ (mtaZero - tape.betaPrm) % env.q
      ∧ (mtaZero - tape.betaPrm) % env.q < env.q
      ∧ 0 ≤ tape.betaPrm
      ∧ tape.betaPrm < ((env.q * env.q) * (env.q * env.q)) * env.q := by
  have hq := env.qpos
  refine ⟨(proveBobWCCore env tape.prover S.pk NTildeA h1A h2A cA cB b
      tape.betaPrm tape.encRand none).toProofBob, ?_, rfl,
    Int.emod_nonneg _ (by omega), Int.emod_lt_of_pos _ hq, hdraw.1, hdraw.2⟩
  simp only [bobMid, hverify, henc, hmul, hadd]
  rfl

theorem bobMid_success_path_witness :
    ∃ piB,
      bobMid cexScheme cexEnv (fun (_ : Unit) _ _ _ _ _ => true)
        ⟨0, 1, allOneTape⟩ () 1 1 5 2 3 5 2 3
        = .ok ((mtaZero - 0) % cexEnv.q, 1, 0, piB)
      ∧ proveBob cexEnv allOneTape (some cexScheme.pk) (some 5) (some 2)
          (some 3) (some 1) (some 1) (some 1) (some 0) (some 1) = .ok piB
      ∧ 0 ≤ (mtaZero - 0) % cexEnv.q
      ∧ (mtaZero - 0) % cexEnv.q < cexEnv.q
      ∧ (0 : Int) ≤ 0
      ∧ (0 : Int) < ((cexEnv.q * cexEnv.q) * (cexEnv.q * cexEnv.q)) * cexEnv.q :=
  bobMid_success_path cexScheme cexEnv (fun (_ : Unit) _ _ _ _ _ => true)
    ⟨0, 1, allOneTape⟩ () 1 1 5 2 3 5 2 3 0 1 1
    rfl (by decide) (by decide) (by decide) (by decide)

theorem bobMid_ok_inv {A : Type} (S : PaillierScheme) (env : CurveEnv)
    (rv : A → PublicKey → Int → Int → Int → Int → Bool) (tape : BobTape)
    (pfA : A) (b cA NTildeA h1A h2A NTildeB h1B h2B : Int)
    (beta cB betaPrm : Int) (piB : ProofBob)
    (h : bobMid S env rv tape pfA b cA NTildeA h1A h2A NTildeB h1B h2B
        = .ok (beta, cB, betaPrm, piB)) :
    rv pfA S.pk NTildeB h1B h2B cA = true
    ∧ betaPrm = tape.betaPrm
    ∧ beta = (mtaZero - tape.betaPrm) % env.q
    ∧ ∃ cBetaPrm cB1, S.encrypt tape.betaPrm tape.encRand = some cBetaPrm
        ∧ S.homoMult b cA = some cB1
        ∧ S.homoAdd cB1 cBetaPrm = some cB := by
  simp only [bobMid] at h
  rcases hrv : rv pfA S.pk NTildeB h1B h2B cA with _ | _
  · rw [hrv] at h
    simp at h
  · rw [hrv] at h
    rcases henc : S.encrypt tape.betaPrm tape.encRand with _ | cBetaPrm
    · rw [henc] at h
      simp at h
    · rw [henc] at h
      dsimp only at h
      rcases hmul : S.homoMult b cA with _ | cB1
      · rw [hmul] at h
        simp at h
      · rw [hmul] at h
        dsimp only at h
        rcases hadd : S.homoAdd cB1 cBetaPrm with _ | cBv
        · rw [hadd] at h
          simp at h
        · rw [hadd] at h
          dsimp only at h
          simp only [proveBob, proveBobWC, Bool.true_eq_false, if_false,
            Except.ok.injEq, Prod.mk.injEq, reduceIte] at h
          obtain ⟨hbeta, hcB, hbp, hpiB⟩ := h
          exact ⟨rfl, hbp.symm, hbeta.symm, cBetaPrm, cB1, rfl, rfl,
            hcB ▸ hadd⟩

theorem aliceEnd_ok_inv (S : PaillierScheme) (env : CurveEnv)
    (pf : Option ProofBob) (h1A h2A cA cB NTildeA alpha : Int)
    (h : aliceEnd S env pf h1A h2A cA cB NTildeA = some (.ok alpha)) :
    verifyBob env (some S.pk) (some NTildeA) (some h1A) (some h2A) (some cA)
        (some cB) pf = some true
    ∧ ∃ m, S.decrypt cB = some m ∧ alpha = m % env.q := by
  unfold aliceEnd at h
  split at h
  · simp at h
  · simp at h
  · rename_i hv
    split at h
    · simp at h
    · rename_i m hdec
      simp only [Option.some.injEq, Except.ok.injEq] at h
      exact ⟨hv, m, hdec, h.symm⟩

/-- C1 (amended): for a Paillier key pair satisfying the spec §4.1 laws, if
`AliceInit → BobMid → AliceEnd` all succeed, `b` is non-negative and the
plaintext `a·b + β'` does not wrap the Paillier modulus (`a·b + β' < N`), then
`α + β ≡ a·b (mod q)`. -/
theorem mta_alpha_beta_identity {A : Type} (S : PaillierScheme) (env : CurveEnv)
    (pr : PublicKey → Int → Int → Int → Int → Int → Int → Except String A)
    (rv : A → PublicKey → Int → Int → Int → Int → Bool) (tape : BobTape)
    (a rA cA b NTildeA h1A h2A NTildeB h1B h2B : Int) (pfA : A)
    (beta cB betaPrm alpha : Int) (piB : ProofBob)
    (hinit : aliceInit pr S.pk a cA rA NTildeB h1B h2B = .ok pfA)
    (hcA : S.encrypt a rA = some cA)
    (hbob : bobMid S env rv tape pfA b cA NTildeA h1A h2A NTildeB h1B h2B
        = .ok (beta, cB, betaPrm, piB))
    (halice : aliceEnd S env (some piB) h1A h2A cA cB NTildeA = some (.ok alpha))
    (hb : 0 ≤ b)
    (hbound : a * b + betaPrm < S.N) :
    (alpha + beta) % env.q = (a * b) % env.q := by
  obtain ⟨-, hbp, hbeta, cBetaPrm, cB1, henc, hmul, hadd⟩ :=
    bobMid_ok_inv S env rv tape pfA b cA NTildeA h1A h2A NTildeB h1B h2B
      beta cB betaPrm piB hbob
  obtain ⟨-, m, hdec, halpha⟩ :=
    aliceEnd_ok_inv S env (some piB) h1A h2A cA cB NTildeA alpha halice
  subst hbp
  have hDa : S.decrypt cA = some a := S.decrypt_encrypt a rA cA hcA
  have haRange : 0 ≤ a ∧ a < S.N :=
    (S.encrypt_isSome a rA).mp (by rw [hcA]; rfl)
  have hbpRange : 0 ≤ tape.betaPrm ∧ tape.betaPrm < S.N :=
    (S.encrypt_isSome tape.betaPrm tape.encRand).mp (by rw [henc]; rfl)
  have hDbp : S.decrypt cBetaPrm = some tape.betaPrm :=
    S.decrypt_encrypt tape.betaPrm tape.encRand cBetaPrm henc
  have hDmul : S.decrypt cB1 = some ((b * a) % S.N) :=
    S.homoMult_spec b cA a cB1 hDa hmul
  have hDcB : S.decrypt cB = some (((b * a) % S.N + tape.betaPrm) % S.N) :=
    S.homoAdd_spec cB1 cBetaPrm ((b * a) % S.N) tape.betaPrm cB hDmul hDbp hadd
  rw [hdec] at hDcB
  injection hDcB with hm
  have hba : (b * a) % S.N = b * a :=
    Int.emod_eq_of_lt (mul_nonneg hb haRange.1)
      (by rw [mul_comm]; linarith [hbpRange.1])
  have hmval : m = a * b + tape.betaPrm := by
    rw [hm, hba, mul_comm b a]
    exact Int.emod_eq_of_lt (add_nonneg (mul_nonneg haRange.1 hb) hbpRange.1)
      hbound
  subst halpha
  rw [hbeta, hmval]
  rw [← Int.add_emod]
  congr 1
  simp only [mtaZero]
  ring

/-- The `ProveBob` proof produced inside a full `BobMid` run under `cexEnv`
with `betaPrm = 1` (ciphertexts `cA = 1`, `cB = 2`). -/
def piBCex : ProofBob :=
  (proveBobWCCore cexEnv allOneTape cexScheme.pk 5 2 3 1 2 1 1 1 none).toProofBob

/-- C1 (counterexample): over a Paillier scheme satisfying the §4.1 laws with
`N = 2` and curve order `q = 3`, the full `AliceInit → BobMid → AliceEnd`
sequence succeeds on `a = b = 1` with `β' = 1`, yet
`α + β = 0 + 2 ≢ 1 = a·b (mod 3)`: the claim fails without a bound relating
`a·b + β'` to the Paillier modulus. -/
theorem mta_alpha_beta_unbounded_cex :
    cexScheme.encrypt 1 1 = some 1
    ∧ aliceInit (fun _ _ _ _ _ _ _ => Except.ok ()) cexScheme.pk 1 1 1 5 2 3
        = .ok ()
    ∧ bobMid cexScheme cexEnv (fun (_ : Unit) _ _ _ _ _ => true)
        ⟨1, 1, allOneTape⟩ () 1 1 5 2 3 5 2 3 = .ok (2, 2, 1, piBCex)
    ∧ aliceEnd cexScheme cexEnv (some piBCex) 2 3 1 2 5 = some (.ok 0)
    ∧ ¬ ((0 + 2) % cexEnv.q = (1 * 1) % cexEnv.q) := by
  refine ⟨rfl, rfl, rfl, rfl, by decide⟩

/-- The `ProveBob` proof produced inside a full `BobMid` run under `cexEnv`
with `betaPrm = 0` (ciphertexts `cA = 1`, `cB = 1`); it verifies, so it also
instantiates the success paths of `AliceEnd`. -/
def piBWit : ProofBob :=
  (proveBobWCCore cexEnv allOneTape cexScheme.pk 5 2 3 1 1 1 0 1 none).toProofBob

theorem mta_alpha_beta_identity_witness :
    ((1 : Int) + 0) % cexEnv.q = ((1 : Int) * 1) % cexEnv.q :=
  mta_alpha_beta_identity cexScheme cexEnv (fun _ _ _ _ _ _ _ => Except.ok ())
    (fun (_ : Unit) _ _ _ _ _ => true) ⟨0, 1, allOneTape⟩
    1 1 1 1 5 2 3 5 2 3 () 0 1 0 1 piBWit
    rfl rfl rfl rfl (by decide) (by decide)

/-- C4: `BobMid`/`BobMidWC` return an error (and nothing else) whenever
Alice's range proof rejects; `AliceEnd`/`AliceEndWC` return an error whenever
Bob's proof rejects; and share values are produced only when the peer's proof
verifies. -/
theorem mta_driver_aborts_on_invalid_proofs :
    (∀ (A : Type) (S : PaillierScheme) (env : CurveEnv)
        (rv : A → PublicKey → Int → Int → Int → Int → Bool) (tape : BobTape)
        (pfA : A) (b cA NTildeA h1A h2A NTildeB h1B h2B : Int),
      rv pfA S.pk NTildeB h1B h2B cA = false →
      bobMid S env rv tape pfA b cA NTildeA h1A h2A NTildeB h1B h2B
        = .error "RangeProofAlice.Verify() returned false")
    ∧ (∀ (A : Type) (S : PaillierScheme) (env : CurveEnv)
        (rv : A → PublicKey → Int → Int → Int → Int → Bool) (tape : BobTape)
        (pfA : A) (b cA NTildeA h1A h2A NTildeB h1B h2B : Int)
        (B : Option ECPoint),
      rv pfA S.pk NTildeB h1B h2B cA = false →
      bobMidWC S env rv tape pfA b cA NTildeA h1A h2A NTildeB h1B h2B B
        = .error "RangeProofAlice.Verify() returned false")
    ∧ (∀ (S : PaillierScheme) (env : CurveEnv) (pf : Option ProofBob)
        (h1A h2A cA cB NTildeA : Int),
      verifyBob env (some S.pk) (some NTildeA) (some h1A) (some h2A) (some cA)
          (some cB) pf = some false →
      aliceEnd S env pf h1A h2A cA cB NTildeA
        = some (.error "ProofBob.Verify() returned false"))
    ∧ (∀ (S : PaillierScheme) (env : CurveEnv) (pf : Option ProofBobWC)
        (B : Option ECPoint) (cA cB NTildeA h1A h2A : Int),
      verifyBobWC env (some S.pk) (some NTildeA) (some h1A) (some h2A)
          (some cA) (some cB) pf B = some false →
      aliceEndWC S env pf B cA cB NTildeA h1A h2A
        = some (.error "ProofBobWC.Verify() returned false"))
    ∧ (∀ (A : Type) (S : PaillierScheme) (env : CurveEnv)
        (rv : A → PublicKey → Int → Int → Int → Int → Bool) (tape : BobTape)
        (pfA : A) (b cA NTildeA h1A h2A NTildeB h1B h2B : Int)
        (out : Int × Int × Int × ProofBob),
      bobMid S env rv tape pfA b cA NTildeA h1A h2A NTildeB h1B h2B = .ok out →
      rv pfA S.pk NTildeB h1B h2B cA = true)
    ∧ (∀ (S : PaillierScheme) (env : CurveEnv) (pf : Option ProofBob)
        (h1A h2A cA cB NTildeA alpha : Int),
      aliceEnd S env pf h1A h2A cA cB NTildeA = some (.ok alpha) →
      verifyBob env (some S.pk) (some NTildeA) (some h1A) (some h2A) (some cA)
          (some cB) pf = some true) := by
  refine ⟨?_, ?_, ?_, ?_, ?_, ?_⟩
  · intro A S env rv tape pfA b cA NTildeA h1A h2A NTildeB h1B h2B h
    simp only [bobMid, h]
    rfl
  · intro A S env rv tape pfA b cA NTildeA h1A h2A NTildeB h1B h2B B h
    simp only [bobMidWC, h]
    rfl
  · intro S env pf h1A h2A cA cB NTildeA h
    unfold aliceEnd
    rw [h]
  · intro S env pf B cA cB NTildeA h1A h2A h
    unfold aliceEndWC
    rw [h]
  · intro A S env rv tape pfA b cA NTildeA h1A h2A NTildeB h1B h2B out h
    rcases hrv : rv pfA S.pk NTildeB h1B h2B cA with _ | _
    · simp only [bobMid, hrv] at h
      simp at h
    · rfl
  · intro S env pf h1A h2A cA cB NTildeA alpha h
    exact (aliceEnd_ok_inv S env pf h1A h2A cA cB NTildeA alpha h).1

/-- A proof rejected by the verifier: its `Z` component (5) lies outside
`[0, NTilde)` for `NTilde = 2`. -/
def pfBad : ProofBob :=
  ⟨some 5, some 1, some 1, some 1, some 1, some 1, some 1, some 1, some 1, some 1⟩

theorem mta_driver_aborts_on_invalid_proofs_witness :
    bobMid cexScheme cexEnv (fun (_ : Unit) _ _ _ _ _ => false)
      ⟨0, 1, allOneTape⟩ () 1 1 5 2 3 5 2 3
      = .error "RangeProofAlice.Verify() returned false"
    ∧ bobMidWC cexScheme cexEnv (fun (_ : Unit) _ _ _ _ _ => false)
        ⟨0, 1, allOneTape⟩ () 1 1 5 2 3 5 2 3 none
        = .error "RangeProofAlice.Verify() returned false"
    ∧ aliceEnd cexScheme cexEnv (some pfBad) 1 1 1 1 2
        = some (.error "ProofBob.Verify() returned false")
    ∧ aliceEndWC cexScheme cexEnv (some ⟨pfBad, some ⟨1, 1⟩⟩) none 1 1 2 1 1
        = some (.error "ProofBobWC.Verify() returned false")
    ∧ (fun (_ : Unit) _ _ _ _ _ => true) () cexScheme.pk 5 2 3 1 = true
    ∧ verifyBob cexEnv (some cexScheme.pk) (some 5) (some 2) (some 3) (some 1)
        (some 1) (some piBWit) = some true :=
  ⟨mta_driver_aborts_on_invalid_proofs.1 Unit cexScheme cexEnv _
      ⟨0, 1, allOneTape⟩ () 1 1 5 2 3 5 2 3 rfl,
   mta_driver_aborts_on_invalid_proofs.2.1 Unit cexScheme cexEnv _
      ⟨0, 1, allOneTape⟩ () 1 1 5 2 3 5 2 3 none rfl,
   mta_driver_aborts_on_invalid_proofs.2.2.1 cexScheme cexEnv (some pfBad)
      1 1 1 1 2 (by decide),
   mta_driver_aborts_on_invalid_proofs.2.2.2.1 cexScheme cexEnv
      (some ⟨pfBad, some ⟨1, 1⟩⟩) none 1 1 2 1 1 (by decide),
   mta_driver_aborts_on_invalid_proofs.2.2.2.2.1 Unit cexScheme cexEnv
      (fun (_ : Unit) _ _ _ _ _ => true)
      ⟨0, 1, allOneTape⟩ () 1 1 5 2 3 5 2 3 (0, 1, 0, piBWit) rfl,
   mta_driver_aborts_on_invalid_proofs.2.2.2.2.2 cexScheme cexEnv
      (some piBWit) 2 3 1 1 5 1 rfl⟩
